import Mathlib

set_option maxRecDepth 100000
set_option maxHeartbeats 4000000

/-!
Verification of the SPDX package aggregation and rendering engine
(`pkg/spdx/package.go`): a shallow embedding of the `Package` data model,
its ingestion operations (`AddFile`, `AddPackage`, `AddDependency`,
`ReadSourceFile`) and the recursive `Render` serializer, together with
proofs about identifier synthesis, the verification-code calculation,
uniqueness enforcement, sentinel fallbacks and render idempotence.

Machine integers are modelled as `Nat` with explicit reduction modulo
`2 ^ 32` where the Go code relies on 32-bit overflow (inside SHA-1).
Go maps are modelled as association lists with unique keys; map
assignment replaces an existing binding in place or appends a new one.
-/

namespace Spdx

/-! ## Association lists (model of Go maps) -/

/-- Lookup in an association list; models reading `m[k]` from a Go map. -/
def lookupA {α : Type} (l : List (String × α)) (k : String) : Option α :=
  match l with
  | [] => none
  | (k0, v0) :: rest => if k0 = k then some v0 else lookupA rest k

/-- Model of Go map assignment `m[k] = v`: replace the binding in place if
the key is present, otherwise append a new binding. -/
def insertA {α : Type} (l : List (String × α)) (k : String) (v : α) :
    List (String × α) :=
  match l with
  | [] => [(k, v)]
  | (k0, v0) :: rest => if k0 = k then (k, v) :: rest else (k0, v0) :: insertA rest k v

/-! ## Byte-level string order (model of Go string comparison)

the Go `sort.Strings` sorts by byte-wise lexicographic comparison of the
UTF-8 encoding; UTF-8 preserves code-point order, so this coincides with
lexicographic comparison of the code-point sequences, which is what we
define here. -/

/-- Lexicographic `≤` on lists of naturals. -/
def natListLe : List Nat → List Nat → Bool
  | [], _ => true
  | _ :: _, [] => false
  | a :: as, b :: bs => if a < b then true else if b < a then false else natListLe as bs

/-- The code points of a string, as naturals. -/
def codes (s : String) : List Nat := s.data.map Char.toNat

/-- the Go string `≤`: byte-wise lexicographic order (decidable form). -/
def goStrLeB (a b : String) : Bool := natListLe (codes a) (codes b)

/-- the Go string `≤` as a relation, for use with `List.insertionSort`. -/
def goStrLe (a b : String) : Prop := goStrLeB a b = true

instance : DecidableRel goStrLe := fun a b => instDecidableEqBool (goStrLeB a b) true

/-! ## UTF-8 encoding (model of the Go `[]byte(s)`) -/

/-- UTF-8 encoding of a single code point, as a list of bytes. -/
def utf8EncodeCode (n : Nat) : List Nat :=
  if n < 128 then [n]
  else if n < 2048 then [192 + n / 64, 128 + n % 64]
  else if n < 65536 then [224 + n / 4096, 128 + (n / 64) % 64, 128 + n % 64]
  else [240 + n / 262144, 128 + (n / 4096) % 64, 128 + (n / 64) % 64, 128 + n % 64]

/-- The UTF-8 bytes of a string; models the Go `[]byte(s)` conversion. -/
def strBytes (s : String) : List Nat := (s.data.map (fun c => utf8EncodeCode c.toNat)).flatten

/-! ## SHA-1 (model of the Go `crypto/sha1`) -/

/-- Truncation to a 32-bit word. -/
def w32 (n : Nat) : Nat := n % 4294967296

/-- Left rotation of a 32-bit word by `s` bits. -/
def rotl (s n : Nat) : Nat := w32 ((n <<< s) ||| (n >>> (32 - s)))

/-- Big-endian packing of bytes into 32-bit words, four at a time. -/
def bytesToWords : List Nat → List Nat
  | b0 :: b1 :: b2 :: b3 :: rest =>
      (((b0 * 256 + b1) * 256 + b2) * 256 + b3) :: bytesToWords rest
  | _ => []

/-- Number of zero bytes inserted after the `0x80` padding byte so the
padded message length is 56 mod 64. -/
def sha1PadZeros (n : Nat) : Nat := (119 - n % 64) % 64

/-- The eight-byte big-endian encoding of the message bit length. -/
def sha1LenBytes (n : Nat) : List Nat :=
  let bl := 8 * n
  [(bl >>> 56) &&& 255, (bl >>> 48) &&& 255, (bl >>> 40) &&& 255, (bl >>> 32) &&& 255,
   (bl >>> 24) &&& 255, (bl >>> 16) &&& 255, (bl >>> 8) &&& 255, bl &&& 255]

/-- SHA-1 padding: `0x80`, zeros, then the 64-bit message bit length. -/
def sha1Pad (msg : List Nat) : List Nat :=
  msg ++ 128 :: List.replicate (sha1PadZeros msg.length) 0 ++ sha1LenBytes msg.length

/-- Split a padded message into 64-byte chunks; the fuel is the number of
chunks, which for a padded message is exactly `length / 64`. -/
def toChunksF : Nat → List Nat → List (List Nat)
  | 0, _ => []
  | n + 1, l => l.take 64 :: toChunksF n (l.drop 64)

def toChunks (l : List Nat) : List (List Nat) := toChunksF (l.length / 64) l

/-- Extend the 16 message-schedule words to 80. -/
def sha1Extend : Nat → Array Nat → Array Nat
  | 0, w => w
  | n + 1, w =>
      let x := rotl 1 ((w.getD (w.size - 3) 0) ^^^ (w.getD (w.size - 8) 0) ^^^
        (w.getD (w.size - 14) 0) ^^^ (w.getD (w.size - 16) 0))
      sha1Extend n (w.push x)

/-- One SHA-1 round: `st` is `(a, b, c, d, e)`, `iw` is `(i, w[i])`. -/
def sha1Round (st : Nat × Nat × Nat × Nat × Nat) (iw : Nat × Nat) :
    Nat × Nat × Nat × Nat × Nat :=
  let (a, b, c, d, e) := st
  let (i, w) := iw
  let f :=
    if i < 20 then (b &&& c) ||| ((4294967295 - b) &&& d)
    else if i < 40 then b ^^^ c ^^^ d
    else if i < 60 then (b &&& c) ||| (b &&& d) ||| (c &&& d)
    else b ^^^ c ^^^ d
  let k :=
    if i < 20 then 1518500249
    else if i < 40 then 1859775393
    else if i < 60 then 2400959708
    else 3395469782
  (w32 (rotl 5 a + f + e + k + w), a, rotl 30 b, c, d)

/-- Process one 64-byte chunk, updating the five hash words. -/
def sha1Chunk (hs : Nat × Nat × Nat × Nat × Nat) (chunk : List Nat) :
    Nat × Nat × Nat × Nat × Nat :=
  let ws := sha1Extend 64 (Array.mk (bytesToWords chunk))
  let (h0, h1, h2, h3, h4) := hs
  let st := ((List.range 80).zip ws.toList).foldl sha1Round (h0, h1, h2, h3, h4)
  let (a, b, c, d, e) := st
  (w32 (h0 + a), w32 (h1 + b), w32 (h2 + c), w32 (h3 + d), w32 (h4 + e))

/-- Big-endian bytes of one 32-bit hash word. -/
def wordBytes (h : Nat) : List Nat :=
  [(h >>> 24) &&& 255, (h >>> 16) &&& 255, (h >>> 8) &&& 255, h &&& 255]

/-- The 20-byte SHA-1 digest of a byte sequence. -/
def sha1Bytes (msg : List Nat) : List Nat :=
  let hs := (toChunks (sha1Pad msg)).foldl sha1Chunk
    (1732584193, 4023233417, 2562383102, 271733878, 3285377520)
  let (h0, h1, h2, h3, h4) := hs
  wordBytes h0 ++ wordBytes h1 ++ wordBytes h2 ++ wordBytes h3 ++ wordBytes h4

/-- Lowercase hex digit. -/
def hexDigit (n : Nat) : Char := Char.ofNat (if n < 10 then 48 + n else 87 + n)

/-- Lowercase hex encoding of a byte sequence; models the Go `%x` formatting. -/
def bytesToHex (bs : List Nat) : String :=
  String.mk ((bs.map (fun b => [hexDigit (b / 16), hexDigit (b % 16)])).flatten)

/-- Hex-encoded SHA-1 of a string, models
`fmt.Sprintf("%x", sha1.Sum([]byte(s)))`. -/
def sha1HexOfString (s : String) : String := bytesToHex (sha1Bytes (strBytes s))

/-! ## HTML escaping (model of the Go `html/template`)

`Render` executes its template with `html/template`, whose contextual
auto-escaper runs every interpolation of this template in HTML text
context; this models the text-context escaper, which rewrites the five
HTML-special characters and maps NUL to U+FFFD. -/

/-- Escaping of one character by the `html/template` text-context escaper. -/
def htmlEscapeChar (c : Char) : String :=
  if c.toNat = 60 then ("&lt;")
  else if c.toNat = 62 then ("&gt;")
  else if c.toNat = 38 then ("&amp;")
  else if c.toNat = 39 then ("&#39;")
  else if c.toNat = 34 then ("&#34;")
  else if c.toNat = 0 then String.singleton (Char.ofNat 65533)
  else String.singleton c

/-- Escaping applied by `html/template` to a string interpolated in HTML
text context. -/
def htmlEscape (s : String) : String := String.join (s.data.map htmlEscapeChar)

/-! ## Constants and helpers defined elsewhere in the repository -/

/-- Modelled from the spec: the sentinel placeholder `NONE` used when real
data is absent (the constant is declared outside `package.go`). -/
def NONE : String := "NONE"

/-- Modelled from the spec: the sentinel placeholder `NOASSERTION` used
when real data is absent (the constant is declared outside `package.go`). -/
def NOASSERTION : String := "NOASSERTION"

/-- Valid identifier characters: letters, digits, `.` and `-`. -/
def validIDChar (c : Char) : Bool :=
  (65 ≤ c.toNat && c.toNat ≤ 90) || (97 ≤ c.toNat && c.toNat ≤ 122) ||
  (48 ≤ c.toNat && c.toNat ≤ 57) || c.toNat = 46 || c.toNat = 45

/-- Modelled from the spec: `validNameCharsRe` is declared outside
`package.go`; per the spec, ID derivation strips from `Name` every
character not in the set of letters, digits, `.` and `-`. This function
is the result of `reg.ReplaceAllString(name, "")` for that expression. -/
def stripInvalidIDChars (s : String) : String := String.mk (s.data.filter validIDChar)

/-- Helper for the prefix test; the first argument is the pattern, so the
structural recursion is on the pattern and the check reduces as soon as
the pattern is exhausted even when the scanned list has a free tail. -/
def startsWithPat : List Char → List Char → Bool
  | [], _ => true
  | _ :: _, [] => false
  | b :: bs, a :: as => a == b && startsWithPat bs as

/-- Decidable check that `pat` (second argument) is a leading
subsequence of the first list. -/
def startsWithL (s pat : List Char) : Bool := startsWithPat pat s

/-- Models the Go `strings.TrimPrefix`: drop `pre` from the front of `s`
when it is a leading substring, otherwise return `s` unmodified. -/
def goTrimPre (s pre : String) : String :=
  if startsWithL s.data pre.data then String.mk (s.data.drop pre.data.length) else s

/-! ## Data model -/

/-- A `{Person, Organization}` pair (the `Supplier` / `Originator`
anonymous structs of `Package`). -/
structure Entity where
  Person : String := ""
  Organization : String := ""
deriving DecidableEq

/-- Modelled from the spec: the `File` entity is declared outside
`package.go` and consumed through a narrow contract; it exposes `ID`,
`Name`, `Checksum` (an optional map, `none` modelling a nil Go map) and
`LicenseInfoInFile`. -/
structure File where
  ID : String := ""
  Name : String := ""
  Checksum : Option (List (String × String)) := none
  LicenseInfoInFile : String := ""
deriving DecidableEq

/-- Options record from the source (`PackageOptions`): the configured working directory. -/
structure PackageOptions where
  WorkDir : String := ""
deriving DecidableEq

/-- The fields of `Package`, parameterized by the type of sub-packages so
that `Package` can tie the recursive knot. Defaults are Go zero values,
as produced by `NewPackage`. -/
structure PackageData (P : Type) where
  FilesAnalyzed : Bool := false
  Name : String := ""
  ID : String := ""
  DownloadLocation : String := ""
  VerificationCode : String := ""
  LicenseConcluded : String := ""
  LicenseInfoFromFiles : List String := []
  LicenseDeclared : String := ""
  LicenseComments : String := ""
  CopyrightText : String := ""
  Version : String := ""
  FileName : String := ""
  SourceFile : String := ""
  Supplier : Entity := {}
  Originator : Entity := {}
  Packages : List (String × P) := []
  Files : List (String × File) := []
  Checksum : List (String × String) := []
  Dependencies : List (String × P) := []
  options : PackageOptions := {}

/-- The `Package` aggregate: a named grouping of files, sub-packages and
dependency packages. -/
inductive Package : Type where
  | mk (data : PackageData Package) : Package

/-- Projection to the field record. -/
def Package.data : Package → PackageData Package
  | .mk d => d

/-- Constructor `NewPackage`: returns a package with all fields at their zero values. -/
def NewPackage : Package := .mk {}

/-! ## Ingestion operations -/

/-- Model of `Package.ReadSourceFile`. The filesystem is modelled as a partial map
`fs` from path to file content, and the external checksum providers
(`hash.SHA256ForFile` / `hash.SHA512ForFile` from release-utils) as
functions `sha256F` / `sha512F` of the file content. `filepath.Separator`
is `/`. Returns the updated package and an optional error. -/
def Package.ReadSourceFile (fs : String → Option String)
    (sha256F sha512F : String → String) (p : Package) (path : String) :
    Package × Option String :=
  match fs path with
  | none => (p, some ("unable to find package source file"))
  | some content =>
      (.mk { p.data with
               Checksum := [("SHA256", sha256F content), ("SHA512", sha512F content)],
               SourceFile := path,
               FileName := goTrimPre path (p.data.options.WorkDir ++ "/") },
       none)

/-- Model of `Package.AddFile`: synthesize an ID from the SHA-1 of
`<package name>:<file name>` when the file carries none, then insert the
file into the `Files` map (overwriting any entry under the same ID). -/
def Package.AddFile (p : Package) (f : File) : Except String Package :=
  if f.ID = "" then
    if f.Name = "" then .error ("unable to generate file ID, filename not set")
    else if p.data.Name = "" then .error ("unable to generate file ID, package not set")
    else
      let fid := "SPDXRef-File-" ++ sha1HexOfString (p.data.Name ++ ":" ++ f.Name)
      .ok (.mk { p.data with Files := insertA p.data.Files fid { f with ID := fid } })
  else .ok (.mk { p.data with Files := insertA p.data.Files f.ID f })

/-- Model of `Package.preProcessSubPackage`: derive an ID from the stripped name
when absent, then check the ID against both the sub-package and the
dependency namespace of the parent. Returns the (possibly ID-assigned)
sub-package. -/
def Package.preProcessSubPackage (p pkg : Package) : Except String Package :=
  let pkg1 : Package :=
    if pkg.data.ID = "" then
      let id := stripInvalidIDChars pkg.data.Name
      if id ≠ "" then .mk { pkg.data with ID := "SPDXRef-Package-" ++ id } else pkg
    else pkg
  if pkg1.data.ID = "" then .error ("package name is needed to add a new package")
  else if (lookupA p.data.Packages pkg1.data.ID).isSome then
    .error ("a package named " ++ pkg1.data.ID ++ " already exists as a subpackage")
  else if (lookupA p.data.Dependencies pkg1.data.ID).isSome then
    .error ("a package named " ++ pkg1.data.ID ++ " already exists as a dependency")
  else .ok pkg1

/-- Model of `Package.AddPackage`: attach a sub-package; on a pre-processing
failure the parent is returned unchanged together with the wrapped
error. -/
def Package.AddPackage (p pkg : Package) : Package × Option String :=
  match p.preProcessSubPackage pkg with
  | .error e => (p, some ("performing subpackage preprocessing: " ++ e))
  | .ok pkg1 =>
      (.mk { p.data with Packages := insertA p.data.Packages pkg1.data.ID pkg1 }, none)

/-- Model of `Package.AddDependency`: attach a dependency package; on a
pre-processing failure the parent is returned unchanged together with the
wrapped error. -/
def Package.AddDependency (p pkg : Package) : Package × Option String :=
  match p.preProcessSubPackage pkg with
  | .error e => (p, some ("performing subpackage preprocessing: " ++ e))
  | .ok pkg1 =>
      (.mk { p.data with Dependencies := insertA p.data.Dependencies pkg1.data.ID pkg1 },
       none)

/-! ## Rendering -/

/-- Lookup in a `File.Checksum` map (e.g. `f.Checksum["SHA1"]`). -/
def lookupCk (l : List (String × String)) (k : String) : Option String := lookupA l k

/-- The verification-code loop of `Render`: walk the files collecting each
SHA-1 hex value of each file into `shas` and its distinct non-empty license tag
into `tags`, failing on a file with a nil checksum map or without a SHA-1
entry. -/
def collectFilesLoop : List (String × File) → List String → List String →
    Except String (List String × List String)
  | [], shas, tags => .ok (shas, tags)
  | (_, f) :: rest, shas, tags =>
    match f.Checksum with
    | none => .error ("unable to render package, file has no checksums")
    | some cks =>
      match lookupCk cks ("SHA1") with
      | none =>
          .error ("unable to render package, files were analyzed but some do not have sha1 checksum")
      | some sha =>
          let tags2 :=
            if f.LicenseInfoInFile ≠ "" && !(tags.contains f.LicenseInfoInFile) then
              tags ++ [f.LicenseInfoInFile]
            else tags
          collectFilesLoop rest (shas ++ [sha]) tags2

/-- The `VerificationCode` computed from a list of SHA-1 hex values:
sort them byte-lexicographically (`sort.Strings`), concatenate
(`strings.Join(..., "")`), and hex-encode the SHA-1 of the result. -/
def verificationCodeOf (shaList : List String) : String :=
  bytesToHex (sha1Bytes (strBytes (String.join (List.insertionSort goStrLe shaList))))

/-- The pre-template step of `Render`: when `FilesAnalyzed` is set,
compute the new `VerificationCode` and `LicenseInfoFromFiles` values (the
latter is appended to, not replaced), or fail. When `FilesAnalyzed` is
not set, both fields keep their current values. -/
def verifyStep (d : PackageData Package) : Except String (String × List String) :=
  if d.FilesAnalyzed then
    if d.Files.length = 0 then
      .error ("unable to get package verification code, package has no files")
    else
      match collectFilesLoop d.Files [] [] with
      | .error e => .error e
      | .ok (shaList, filesTagList) =>
          let lif := d.LicenseInfoFromFiles ++
            filesTagList.filter (fun t => !(t == NONE) && !(t == NOASSERTION)) ++
            (if filesTagList.length = 0 then [NONE] else [])
          .ok (verificationCodeOf shaList, lif)
  else .ok (d.VerificationCode, d.LicenseInfoFromFiles)

/-- The package stanza produced by executing `packageTemplate` on the
package fields with `html/template` (every interpolation is escaped by
the text-context escaper; a `range` over a Go map iterates in sorted key
order; `if` on a string / slice / map tests non-emptiness). -/
def executeTemplate (d : PackageData Package) : String :=
  "##### Package: " ++ htmlEscape d.Name ++ "\n\n" ++
  (if d.Name ≠ "" then ("PackageName: ") ++ htmlEscape d.Name ++ "\n" else ("")) ++
  (if d.ID ≠ "" then ("SPDXID: ") ++ htmlEscape d.ID ++ "\n" else ("")) ++
  (if d.Checksum ≠ [] then
    String.join ((List.insertionSort (fun a b : String × String => goStrLe a.1 b.1)
        d.Checksum).map
      (fun kv =>
        if kv.2 ≠ "" then
          "PackageChecksum: " ++ htmlEscape kv.1 ++ ": " ++ htmlEscape kv.2 ++ "\n"
        else ("")))
   else ("")) ++
  "PackageDownloadLocation: " ++
    (if d.DownloadLocation ≠ "" then htmlEscape d.DownloadLocation else ("NONE")) ++ "\n" ++
  "FilesAnalyzed: " ++ (if d.FilesAnalyzed then ("true") else ("false")) ++ "\n" ++
  (if d.VerificationCode ≠ "" then
    "PackageVerificationCode: " ++ htmlEscape d.VerificationCode ++ "\n"
   else ("")) ++
  "PackageLicenseConcluded: " ++
    (if d.LicenseConcluded ≠ "" then htmlEscape d.LicenseConcluded else ("NOASSERTION")) ++
    "\n" ++
  (if d.FileName ≠ "" then ("PackageFileName: ") ++ htmlEscape d.FileName ++ "\n" else ("")) ++
  (if d.LicenseInfoFromFiles ≠ [] then
    String.join (d.LicenseInfoFromFiles.map
      (fun t => "PackageLicenseInfoFromFiles: " ++ htmlEscape t ++ "\n"))
   else ("")) ++
  (if d.Version ≠ "" then ("PackageVersion: ") ++ htmlEscape d.Version ++ "\n" else ("")) ++
  "PackageLicenseDeclared: " ++
    (if d.LicenseDeclared ≠ "" then htmlEscape d.LicenseDeclared else ("NOASSERTION")) ++
    "\n" ++
  "PackageCopyrightText: " ++
    (if d.CopyrightText ≠ "" then ("<text>") ++ htmlEscape d.CopyrightText ++ "\n</text>"
     else ("NOASSERTION")) ++ "\n\n"

/-- The file loop of `Render`: the own fragment of each file (produced by the
external `File.Render`, passed in as `fr`) followed by a
`Relationship: <package-id> CONTAINS <file-id>` line. A failing file
aborts with a wrapped error naming the file and an empty fragment. -/
def renderFiles (fr : File → Except String String) (pid : String) :
    List (String × File) → String × Option String
  | [] => ("", none)
  | (_, f) :: rest =>
    match fr f with
    | .error e => ("", some ("rendering file " ++ f.Name ++ ": " ++ e))
    | .ok ffrag =>
      match renderFiles fr pid rest with
      | (_, some e) => ("", some e)
      | (rfrag, none) =>
          (ffrag ++ "Relationship: " ++ pid ++ " CONTAINS " ++ f.ID ++ "\n\n" ++ rfrag,
           none)

mutual

/-- Model of `Package.Render`: run the verification-code step, execute the
template, then append each contained file, sub-package and dependency
followed by its relationship line. Mutations performed before a failure
persist (the Go receiver is a pointer), so the updated package is
returned alongside the fragment and the optional error; every failure
returns an empty fragment. -/
def Package.Render (fr : File → Except String String) :
    Package → Package × String × Option String
  | .mk d =>
    match verifyStep d with
    | .error e => (.mk d, "", some e)
    | .ok (vc, lif) =>
      let d2 : PackageData Package :=
        { d with VerificationCode := vc, LicenseInfoFromFiles := lif }
      match renderFiles fr d.ID d.Files with
      | (_, some e) => (.mk d2, "", some e)
      | (ffrag, none) =>
        match renderChildren fr d.ID ("CONTAINS") d.Packages with
        | (pkgs2, _, some e) => (.mk { d2 with Packages := pkgs2 }, "", some e)
        | (pkgs2, pfrag, none) =>
          match renderChildren fr d.ID ("DEPENDS_ON") d.Dependencies with
          | (deps2, _, some e) =>
              (.mk { d2 with Packages := pkgs2, Dependencies := deps2 }, "", some e)
          | (deps2, dfrag, none) =>
              (.mk { d2 with Packages := pkgs2, Dependencies := deps2 },
               executeTemplate d2 ++ ffrag ++ pfrag ++ dfrag, none)
  termination_by p => sizeOf p
  decreasing_by
  all_goals (cases d; simp; omega)

/-- The sub-package / dependency loop of `Render`: the fragment of each child
followed by a `Relationship: <parent-id> <rel> <child-id>` line; a failing
child aborts with a wrapped error naming the child. The updated children
are returned even on failure. -/
def renderChildren (fr : File → Except String String) (pid rel : String) :
    List (String × Package) → List (String × Package) × String × Option String
  | [] => ([], "", none)
  | (k, sp) :: rest =>
    match Package.Render fr sp with
    | (sp2, _, some e) =>
        ((k, sp2) :: rest, "", some ("rendering pkg " ++ sp2.data.Name ++ ": " ++ e))
    | (sp2, frag, none) =>
      match renderChildren fr pid rel rest with
      | (rest2, _, some e) => ((k, sp2) :: rest2, "", some e)
      | (rest2, rfrag, none) =>
          ((k, sp2) :: rest2,
           frag ++ "Relationship: " ++ pid ++ " " ++ rel ++ " " ++ sp2.data.ID ++ "\n\n" ++
             rfrag,
           none)
  termination_by l => sizeOf l
  decreasing_by
  all_goals (simp; try omega)

end

/-! ## Derived definitions used by the statements -/

/-- The SHA-1 hex value a file carries (empty when absent); the direct
reading of `f.Checksum["SHA1"]`. -/
def fileSha (f : File) : String :=
  match f.Checksum with
  | none => ""
  | some cks => (lookupCk cks ("SHA1")).getD ""

/-- Fold of `AddFile` over a list of files, in order. -/
def addFiles (p : Package) : List File → Except String Package
  | [] => .ok p
  | f :: rest =>
    match p.AddFile f with
    | .error e => .error e
    | .ok p2 => addFiles p2 rest

/-- Decidable check that `pat` occurs contiguously inside the list. -/
def hasSubL (pat : List Char) : List Char → Bool
  | [] => startsWithL [] pat
  | c :: rest => startsWithL (c :: rest) pat || hasSubL pat rest

/-- Substring occurrence: `sub` occurs contiguously inside `s`. -/
def containsStr (s sub : String) : Prop := hasSubL sub.data s.data = true

instance (s sub : String) : Decidable (containsStr s sub) :=
  instDecidableEqBool (hasSubL sub.data s.data) true

/-- Suffix occurrence: `s` ends with `suf`. -/
def endsWithStr (s suf : String) : Prop :=
  startsWithL s.data.reverse suf.data.reverse = true

instance (s suf : String) : Decidable (endsWithStr s suf) :=
  instDecidableEqBool (startsWithL s.data.reverse suf.data.reverse) true

/-- The non-recursive part of `Render`, reached when the package has no
sub-packages and no dependencies; `Render` coincides with it on such
packages (proved below). -/
def leafRender (fr : File → Except String String) (d : PackageData Package) :
    Package × String × Option String :=
  match verifyStep d with
  | .error e => (.mk d, "", some e)
  | .ok (vc, lif) =>
    let d2 : PackageData Package :=
      { d with VerificationCode := vc, LicenseInfoFromFiles := lif }
    match renderFiles fr d.ID d.Files with
    | (_, some e) => (.mk d2, "", some e)
    | (ffrag, none) => (.mk d2, executeTemplate d2 ++ ffrag, none)

mutual

/-- Every ID in the package tree: the ID of the package itself, of its
files, and recursively of its sub-packages and dependencies. -/
def Package.idsOf : Package → List String
  | .mk d =>
    d.ID :: (d.Files.map (fun kf => kf.2.ID) ++
      (idsOfChildren d.Packages ++ idsOfChildren d.Dependencies))
  termination_by p => sizeOf p
  decreasing_by
  all_goals (cases d; simp; try omega)

/-- Every ID in a list of sub-trees. -/
def idsOfChildren : List (String × Package) → List String
  | [] => []
  | (_, sp) :: rest => sp.idsOf ++ idsOfChildren rest
  termination_by l => sizeOf l
  decreasing_by
  all_goals (simp; try omega)

end

/-! ## Concrete inputs for the worked examples -/

/-- A trivial instance of the external file-render contract: every file
renders to an empty fragment. -/
def frOk : File → Except String String := fun _ => .ok ("")

/-- A 40-hex-char content hash. -/
def hash40a : String := "aaaaaaaaaaaaaaaaaaaaaaaaaaaaaaaaaaaaaaaa"

/-- A second 40-hex-char content hash. -/
def hash40b : String := "bbbbbbbbbbbbbbbbbbbbbbbbbbbbbbbbbbbbbbbb"

/-- A file named `main.c` carrying a SHA-1 content hash and no ID. -/
def fileMainC : File := { Name := "main.c", Checksum := some [("SHA1", hash40a)] }

/-- A file named `main.c` with no ID and no checksums. -/
def fileMainCPlain : File := { Name := "main.c" }

/-- A package named `hello` with files analyzed and no files yet. -/
def pkgHello : Package := .mk { Name := "hello", FilesAnalyzed := true }

/-- The package of the end-to-end example: `hello` with `main.c` attached
through `AddFile`. -/
def pkgC4 : Package := ((pkgHello.AddFile fileMainC).toOption).getD NewPackage

/-- The end-to-end example package with its ID set to the value
`preProcessSubPackage` derives for the name `hello`. -/
def pkgC4WithID : Package := .mk { pkgC4.data with ID := "SPDXRef-Package-hello" }

/-- The package as left (mutated) by a first render of the end-to-end
example package. -/
def pkgC4R : Package := (leafRender frOk pkgC4.data).1

/-- A package whose single file has a nil checksum map. -/
def pkgC6 : Package :=
  .mk { Name := "hello", FilesAnalyzed := true,
        Files := [("F1", { ID := "F1", Name := "main.c" })] }

/-- A package whose name contains HTML-special characters. -/
def pkgC10 : Package := .mk { Name := "a<b>&\"q\"" }

/-- A parent package that already has a dependency under the ID derived
from the name `dep`. -/
def pkgC5parent : Package :=
  .mk { Name := "parent",
        Dependencies := [("SPDXRef-Package-dep", .mk { Name := "dep", ID := "SPDXRef-Package-dep" })] }

/-- A sub-package candidate named `dep` with no explicit ID. -/
def pkgC5child : Package := .mk { Name := "dep" }

/-- Two files with explicit distinct IDs and SHA-1 hashes, for the
order-independence example. -/
def fileA : File := { ID := "FA", Name := "a.c", Checksum := some [("SHA1", hash40b)] }

def fileB : File := { ID := "FB", Name := "b.c", Checksum := some [("SHA1", hash40a)] }

/-- Decidable check that a file carries a SHA-1 content-hash entry. -/
def hasSha1 (f : File) : Bool :=
  match f.Checksum with
  | none => false
  | some cks => (lookupCk cks ("SHA1")).isSome

/-- The ID under which `preProcessSubPackage` registers a candidate
sub-package: the explicit ID when present, otherwise the one derived from
the stripped name (empty when underivable). -/
def effectiveID (pkg : Package) : String :=
  if pkg.data.ID = "" then
    (if stripInvalidIDChars pkg.data.Name ≠ "" then
      "SPDXRef-Package-" ++ stripInvalidIDChars pkg.data.Name
     else "")
  else pkg.data.ID

/-- The file ID `AddFile` synthesizes for file `main.c` inside package
`hello`. -/
def fidMainC : String := "SPDXRef-File-" ++ sha1HexOfString ("hello:main.c")

/-- A small filesystem for the source-file example: one artifact below
the working directory and one outside it. -/
def fsC9 : String → Option String := fun path =>
  if path = "/w/src.tgz" then some ("content one")
  else if path = "other.tgz" then some ("content two")
  else none

/-- A stand-in 256-bit checksum provider. -/
def h256F : String → String := fun c => "h256-" ++ c

/-- A stand-in 512-bit checksum provider. -/
def h512F : String → String := fun c => "h512-" ++ c

/-- A package configured with working directory `/w`. -/
def pkgC9 : Package := .mk { Name := "pp", options := { WorkDir := "/w" } }

/-! ## Validation of the SHA-1 model against standard test vectors -/

theorem sha1_vector_abc :
    sha1HexOfString ("abc") = "a9993e364706816aba3e25717850c26c9cd0d89d" := by decide

theorem sha1_vector_empty :
    sha1HexOfString ("") = "da39a3ee5e6b4b0d3255bfef95601890afd80709" := by decide

theorem sha1_vector_hello_main_c :
    sha1HexOfString ("hello:main.c") = "721e00ec4e522cf0757591169a375f96212928c7" := by
  decide

/-! ## Unfolding lemmas for the recursive renderer -/

theorem renderChildren_nil (fr : File → Except String String) (pid rel : String) :
    renderChildren fr pid rel [] = ([], "", none) := by
  rw [renderChildren]

theorem Render_mk (fr : File → Except String String) (d : PackageData Package) :
    Package.Render fr (.mk d) =
      match verifyStep d with
      | .error e => (.mk d, "", some e)
      | .ok (vc, lif) =>
        let d2 : PackageData Package :=
          { d with VerificationCode := vc, LicenseInfoFromFiles := lif }
        match renderFiles fr d.ID d.Files with
        | (_, some e) => (.mk d2, "", some e)
        | (ffrag, none) =>
          match renderChildren fr d.ID ("CONTAINS") d.Packages with
          | (pkgs2, _, some e) => (.mk { d2 with Packages := pkgs2 }, "", some e)
          | (pkgs2, pfrag, none) =>
            match renderChildren fr d.ID ("DEPENDS_ON") d.Dependencies with
            | (deps2, _, some e) =>
                (.mk { d2 with Packages := pkgs2, Dependencies := deps2 }, "", some e)
            | (deps2, dfrag, none) =>
                (.mk { d2 with Packages := pkgs2, Dependencies := deps2 },
                 executeTemplate d2 ++ ffrag ++ pfrag ++ dfrag, none) := by
  rw [Package.Render]

/-- Rendering a package without sub-packages and dependencies coincides
with the non-recursive `leafRender`. -/
theorem Render_leaf (fr : File → Except String String) (d : PackageData Package)
    (h1 : d.Packages = []) (h2 : d.Dependencies = []) :
    Package.Render fr (.mk d) = leafRender fr d := by
  rw [Render_mk, leafRender]
  cases hv : verifyStep d with
  | error e => rfl
  | ok pr =>
    obtain ⟨vc, lif⟩ := pr
    cases hf : renderFiles fr d.ID d.Files with
    | mk ffrag oe =>
      cases oe with
      | some e => rfl
      | none =>
        rw [h1, h2, renderChildren_nil, renderChildren_nil]
        simp

/-! ## Properties of the byte-lexicographic string order -/

theorem char_toNat_inj {a b : Char} (h : a.toNat = b.toNat) : a = b := by
  cases a with
  | mk v1 h1 =>
    cases b with
    | mk v2 h2 =>
      simp only [Char.toNat] at h
      congr 1
      exact UInt32.toNat.inj h

theorem natListLe_total : ∀ a b : List Nat, natListLe a b = true ∨ natListLe b a = true
  | [], _ => Or.inl rfl
  | _ :: _, [] => Or.inr rfl
  | a :: as, b :: bs => by
    simp only [natListLe]
    rcases Nat.lt_trichotomy a b with h | h | h
    · left; simp [h]
    · subst h
      rcases natListLe_total as bs with h2 | h2
      · left; simp [h2]
      · right; simp [h2]
    · right; simp [h]

theorem natListLe_trans : ∀ a b c : List Nat,
    natListLe a b = true → natListLe b c = true → natListLe a c = true
  | [], _, _, _, _ => rfl
  | _ :: _, [], _, h1, _ => by simp [natListLe] at h1
  | _ :: _, _ :: _, [], _, h2 => by simp [natListLe] at h2
  | a :: as, b :: bs, c :: cs, h1, h2 => by
    simp only [natListLe] at h1 h2 ⊢
    split_ifs at h1 h2 ⊢ <;>
      first
        | rfl
        | exact natListLe_trans as bs cs h1 h2
        | exact absurd h1 (by decide)
        | exact absurd h2 (by decide)
        | (exfalso; omega)

theorem natListLe_antisymm : ∀ a b : List Nat,
    natListLe a b = true → natListLe b a = true → a = b
  | [], [], _, _ => rfl
  | [], _ :: _, _, h2 => by simp [natListLe] at h2
  | _ :: _, [], h1, _ => by simp [natListLe] at h1
  | a :: as, b :: bs, h1, h2 => by
    simp only [natListLe] at h1 h2
    split_ifs at h1 h2 <;>
      first
        | exact absurd h1 (by decide)
        | exact absurd h2 (by decide)
        | (exfalso; omega)
        | (have hab : a = b := by omega
           subst hab
           rw [natListLe_antisymm as bs h1 h2])

instance : IsTotal String goStrLe := ⟨fun a b => natListLe_total (codes a) (codes b)⟩

instance : IsTrans String goStrLe :=
  ⟨fun a b c h1 h2 => natListLe_trans (codes a) (codes b) (codes c) h1 h2⟩

instance : IsAntisymm String goStrLe := by
  constructor
  intro a b h1 h2
  have hc : codes a = codes b := natListLe_antisymm (codes a) (codes b) h1 h2
  have hd : a.data = b.data :=
    List.map_injective_iff.mpr (fun x y hxy => char_toNat_inj hxy) hc
  exact String.ext hd

/-- Sorting with the Go string order is invariant under permutation of
the input. -/
theorem insertionSort_eq_of_perm {A B : List String} (h : A.Perm B) :
    List.insertionSort goStrLe A = List.insertionSort goStrLe B :=
  List.eq_of_perm_of_sorted
    ((List.perm_insertionSort goStrLe A).trans
      (h.trans (List.perm_insertionSort goStrLe B).symm))
    (List.sorted_insertionSort goStrLe A) (List.sorted_insertionSort goStrLe B)

/-! ## Field lemmas for the renderer -/

/-- A failing verification step makes `Render` return the package
unchanged, an empty fragment and the error. -/
theorem Render_error (fr : File → Except String String) (d : PackageData Package)
    (e : String) (hv : verifyStep d = .error e) :
    Package.Render fr (.mk d) = (.mk d, "", some e) := by
  rw [Render_mk, hv]

/-- The derived fields of the package returned by `Render` when the
verification step succeeds, regardless of what the children do. -/
theorem Render_fields (fr : File → Except String String) (d : PackageData Package)
    (vc : String) (lif : List String) (hv : verifyStep d = .ok (vc, lif)) :
    ((Package.Render fr (.mk d)).1).data.VerificationCode = vc ∧
    ((Package.Render fr (.mk d)).1).data.LicenseInfoFromFiles = lif ∧
    ((Package.Render fr (.mk d)).1).data.ID = d.ID ∧
    ((Package.Render fr (.mk d)).1).data.Name = d.Name ∧
    ((Package.Render fr (.mk d)).1).data.Files = d.Files ∧
    ((Package.Render fr (.mk d)).1).data.FilesAnalyzed = d.FilesAnalyzed ∧
    ((Package.Render fr (.mk d)).1).data.LicenseConcluded = d.LicenseConcluded ∧
    ((Package.Render fr (.mk d)).1).data.LicenseDeclared = d.LicenseDeclared := by
  rw [Render_mk, hv]
  cases hf : renderFiles fr d.ID d.Files with
  | mk ffrag oe =>
    cases oe with
    | some e => simp [Package.data]
    | none =>
      cases hp : renderChildren fr d.ID ("CONTAINS") d.Packages with
      | mk pkgs2 pr =>
        obtain ⟨pfrag, ope⟩ := pr
        cases ope with
        | some e => simp [Package.data]
        | none =>
          cases hq : renderChildren fr d.ID ("DEPENDS_ON") d.Dependencies with
          | mk deps2 qr =>
            obtain ⟨dfrag, oqe⟩ := qr
            cases oqe with
            | some e => simp [Package.data]
            | none => simp [Package.data]

/-! ## Small structural lemmas -/

theorem Package.mk_data (p : Package) : Package.mk p.data = p := by
  cases p
  rfl

theorem lookupA_append_none {α : Type} :
    ∀ (l1 l2 : List (String × α)) (k : String),
    lookupA l1 k = none → lookupA l2 k = none → lookupA (l1 ++ l2) k = none
  | [], l2, k, _, h2 => by simpa using h2
  | (k0, v0) :: rest, l2, k, h1, h2 => by
    simp only [List.cons_append, lookupA] at h1 ⊢
    by_cases hk : k0 = k
    · rw [if_pos hk] at h1
      exact absurd h1 (by simp)
    · rw [if_neg hk] at h1 ⊢
      exact lookupA_append_none rest l2 k h1 h2

theorem insertA_append {α : Type} :
    ∀ (l : List (String × α)) (k : String) (v : α),
    lookupA l k = none → insertA l k v = l ++ [(k, v)]
  | [], _, _, _ => rfl
  | (k0, v0) :: rest, k, v, h => by
    simp only [lookupA] at h
    simp only [insertA, List.cons_append]
    by_cases hk : k0 = k
    · rw [if_pos hk] at h
      exact absurd h (by simp)
    · rw [if_neg hk] at h ⊢
      rw [insertA_append rest k v h]

/-! ## Substring lemmas -/

theorem startsWithL_nil_pat (t : List Char) : startsWithL t [] = true := rfl

theorem startsWithL_append_self : ∀ (x t : List Char), startsWithL (x ++ t) x = true
  | [], t => startsWithL_nil_pat t
  | c :: cs, t => by
    show (c == c && startsWithL (cs ++ t) cs) = true
    rw [startsWithL_append_self cs t]
    simp

theorem hasSubL_of_startsWith {pat s : List Char} (h : startsWithL s pat = true) :
    hasSubL pat s = true := by
  cases s with
  | nil =>
    cases pat with
    | nil => rfl
    | cons p ps => exact absurd h Bool.false_ne_true
  | cons c rest => simp [hasSubL, h]

theorem hasSubL_append_r {pat t : List Char} (s : List Char)
    (h : hasSubL pat t = true) : hasSubL pat (s ++ t) = true := by
  induction s with
  | nil => simpa using h
  | cons c rest ih => simp [hasSubL, ih]

/-- Exhibiting a split of a string proves substring containment. -/
theorem containsStr_of_split {s x : String} (u v : String) (h : s = u ++ (x ++ v)) :
    containsStr s x := by
  subst h
  unfold containsStr
  rw [String.data_append, String.data_append]
  exact hasSubL_append_r u.data
    (hasSubL_of_startsWith (startsWithL_append_self x.data v.data))

/-! ## The verification-code loop -/

theorem hasSha1_elim {f : File} (h : hasSha1 f = true) :
    ∃ cks sha, f.Checksum = some cks ∧ lookupCk cks ("SHA1") = some sha ∧
      fileSha f = sha := by
  cases hcks : f.Checksum with
  | none => exact absurd h (by simp [hasSha1, hcks])
  | some cks =>
    have h2 : (lookupCk cks ("SHA1")).isSome = true := by
      have h3 := h
      simp only [hasSha1, hcks] at h3
      exact h3
    obtain ⟨sha, hsha⟩ := Option.isSome_iff_exists.mp h2
    exact ⟨cks, sha, rfl, hsha, by simp [fileSha, hcks, hsha]⟩

theorem collectFilesLoop_ok :
    ∀ (files : List (String × File)) (shas tags : List String),
    (∀ kf ∈ files, hasSha1 kf.2 = true) →
    ∃ tags2, collectFilesLoop files shas tags =
      .ok (shas ++ files.map (fun kf => fileSha kf.2), tags2)
  | [], shas, tags, _ => ⟨tags, by simp [collectFilesLoop]⟩
  | (k, f) :: rest, shas, tags, h => by
    obtain ⟨cks, sha, hcks, hsha, hfs⟩ :=
      hasSha1_elim (show hasSha1 f = true from h (k, f) (by simp))
    have hrest : ∀ kf ∈ rest, hasSha1 kf.2 = true :=
      fun kf hkf => h kf (by simp [hkf])
    have hmap : List.map (fun kf => fileSha kf.2) ((k, f) :: rest) =
        sha :: List.map (fun kf => fileSha kf.2) rest := by
      rw [List.map_cons]
      show fileSha f :: _ = _
      rw [hfs]
    rw [hmap]
    simp only [collectFilesLoop, hcks, hsha]
    split
    · obtain ⟨tags2, ih⟩ := collectFilesLoop_ok rest (shas ++ [sha])
        (tags ++ [f.LicenseInfoInFile]) hrest
      refine ⟨tags2, ?_⟩
      rw [ih]
      simp [List.append_assoc]
    · obtain ⟨tags2, ih⟩ := collectFilesLoop_ok rest (shas ++ [sha]) tags hrest
      refine ⟨tags2, ?_⟩
      rw [ih]
      simp [List.append_assoc]

theorem collectFilesLoop_no_tags :
    ∀ (files : List (String × File)) (shas tags : List String),
    (∀ kf ∈ files, hasSha1 kf.2 = true) →
    (∀ kf ∈ files, kf.2.LicenseInfoInFile = "") →
    collectFilesLoop files shas tags =
      .ok (shas ++ files.map (fun kf => fileSha kf.2), tags)
  | [], shas, tags, _, _ => by simp [collectFilesLoop]
  | (k, f) :: rest, shas, tags, h, hl => by
    obtain ⟨cks, sha, hcks, hsha, hfs⟩ :=
      hasSha1_elim (show hasSha1 f = true from h (k, f) (by simp))
    have hrest : ∀ kf ∈ rest, hasSha1 kf.2 = true :=
      fun kf hkf => h kf (by simp [hkf])
    have hlrest : ∀ kf ∈ rest, kf.2.LicenseInfoInFile = "" :=
      fun kf hkf => hl kf (by simp [hkf])
    have hlf : f.LicenseInfoInFile = "" := hl (k, f) (by simp)
    have ih := collectFilesLoop_no_tags rest (shas ++ [sha]) tags hrest hlrest
    have hmap : List.map (fun kf => fileSha kf.2) ((k, f) :: rest) =
        sha :: List.map (fun kf => fileSha kf.2) rest := by
      rw [List.map_cons]
      show fileSha f :: _ = _
      rw [hfs]
    rw [hmap]
    simp only [collectFilesLoop, hcks, hsha, hlf]
    simp only [ne_eq, not_true_eq_false, decide_False, Bool.false_and, Bool.false_eq_true,
      if_false, false_and]
    rw [ih]
    simp [List.append_assoc]

/-- Characterization of the verification step on success: the new
verification code is the one computed from the SHA-1 values of the files,
in any order. -/
theorem verifyStep_vc (d : PackageData Package)
    (hfa : d.FilesAnalyzed = true) (hne : d.Files ≠ [])
    (hsha : ∀ kf ∈ d.Files, hasSha1 kf.2 = true) :
    ∃ lif, verifyStep d =
      .ok (verificationCodeOf (d.Files.map (fun kf => fileSha kf.2)), lif) := by
  obtain ⟨tags2, hc⟩ := collectFilesLoop_ok d.Files [] [] hsha
  refine ⟨d.LicenseInfoFromFiles ++
    tags2.filter (fun t => !(t == NONE) && !(t == NOASSERTION)) ++
    (if tags2.length = 0 then [NONE] else []), ?_⟩
  unfold verifyStep
  rw [hfa, if_pos rfl]
  have hlen : ¬ d.Files.length = 0 := by
    simpa [List.length_eq_zero] using hne
  rw [if_neg hlen, hc]
  simp

/-- With files analyzed, no accumulated license info and all files
carrying an empty license tag, the verification step produces exactly the
sentinel list `[NONE]`. -/
theorem verifyStep_no_tags (d : PackageData Package)
    (hfa : d.FilesAnalyzed = true) (hne : d.Files ≠ [])
    (hsha : ∀ kf ∈ d.Files, hasSha1 kf.2 = true)
    (hl : ∀ kf ∈ d.Files, kf.2.LicenseInfoInFile = "")
    (hlif : d.LicenseInfoFromFiles = []) :
    verifyStep d =
      .ok (verificationCodeOf (d.Files.map (fun kf => fileSha kf.2)), [NONE]) := by
  have hc := collectFilesLoop_no_tags d.Files [] [] hsha hl
  unfold verifyStep
  rw [hfa, if_pos rfl]
  have hlen : ¬ d.Files.length = 0 := by
    simpa [List.length_eq_zero] using hne
  rw [if_neg hlen, hc]
  simp [hlif]

/-- On a successful render with a successful verification step, the
fragment starts with the stanza of the updated package fields. -/
theorem Render_frag (fr : File → Except String String) (d : PackageData Package)
    (vc : String) (lif : List String) (hv : verifyStep d = .ok (vc, lif))
    (hsucc : (Package.Render fr (.mk d)).2.2 = none) :
    ∃ rest, (Package.Render fr (.mk d)).2.1 =
      executeTemplate { d with VerificationCode := vc, LicenseInfoFromFiles := lif } ++
        rest := by
  rw [Render_mk, hv] at hsucc ⊢
  cases hf : renderFiles fr d.ID d.Files with
  | mk ffrag oe =>
    rw [hf] at hsucc
    cases oe with
    | some e => simp at hsucc
    | none =>
      cases hp : renderChildren fr d.ID ("CONTAINS") d.Packages with
      | mk pkgs2 pr =>
        obtain ⟨pfrag, ope⟩ := pr
        rw [hp] at hsucc
        cases ope with
        | some e => simp at hsucc
        | none =>
          cases hq : renderChildren fr d.ID ("DEPENDS_ON") d.Dependencies with
          | mk deps2 qr =>
            obtain ⟨dfrag, oqe⟩ := qr
            rw [hq] at hsucc
            cases oqe with
            | some e => simp at hsucc
            | none =>
              refine ⟨ffrag ++ pfrag ++ dfrag, ?_⟩
              simp [String.append_assoc]

/-! ## Claim C1 -/

/-- C1: for every package with `FilesAnalyzed` true whose files all carry
a SHA-1 content hash (the claim presupposes at least one file; with zero
files the render fails, see C6), `Render` sets `VerificationCode` to the
hex encoding of the SHA-1 digest of the concatenation of all files SHA-1
hex values after sorting them lexicographically (byte-wise, as Go compares
strings). -/
theorem C1_render_verification_code (fr : File → Except String String)
    (p : Package) (hfa : p.data.FilesAnalyzed = true) (hne : p.data.Files ≠ [])
    (hsha : ∀ kf ∈ p.data.Files, hasSha1 kf.2 = true) :
    ∃ sorted : List String,
      sorted.Perm (p.data.Files.map (fun kf => fileSha kf.2)) ∧
      List.Sorted goStrLe sorted ∧
      ((Package.Render fr p).1).data.VerificationCode =
        bytesToHex (sha1Bytes (strBytes (String.join sorted))) := by
  obtain ⟨d⟩ := p
  obtain ⟨lif, hv⟩ := verifyStep_vc d hfa hne hsha
  refine ⟨List.insertionSort goStrLe (d.Files.map (fun kf => fileSha kf.2)),
    List.perm_insertionSort _ _, List.sorted_insertionSort _ _, ?_⟩
  have h := (Render_fields fr d _ _ hv).1
  rw [h]
  rfl

/-- Witness for C1 at the end-to-end example package. -/
theorem C1_render_verification_code_witness :
    (pkgC4.data.FilesAnalyzed = true ∧ pkgC4.data.Files ≠ [] ∧
      (∀ kf ∈ pkgC4.data.Files, hasSha1 kf.2 = true)) ∧
    (∃ sorted : List String,
      sorted.Perm (pkgC4.data.Files.map (fun kf => fileSha kf.2)) ∧
      List.Sorted goStrLe sorted ∧
      ((Package.Render frOk pkgC4).1).data.VerificationCode =
        bytesToHex (sha1Bytes (strBytes (String.join sorted)))) :=
  ⟨⟨by decide, by decide, by decide⟩,
   C1_render_verification_code frOk pkgC4 (by decide) (by decide) (by decide)⟩

/-! ## Claim C2 -/

/-- Folding `AddFile` over files with explicit, fresh, pairwise-distinct
IDs appends them to the `Files` map in order. -/
theorem addFiles_ok : ∀ (l : List File) (p : Package),
    (∀ f ∈ l, f.ID ≠ "") →
    (∀ f ∈ l, lookupA p.data.Files f.ID = none) →
    (l.map File.ID).Nodup →
    addFiles p l =
      .ok (.mk { p.data with Files := p.data.Files ++ l.map (fun f => (f.ID, f)) })
  | [], p, _, _, _ => by
    simp only [addFiles, List.map_nil, List.append_nil]
    exact congrArg Except.ok (Package.mk_data p).symm
  | f :: rest, p, hids, hlk, hnd => by
    have hid : f.ID ≠ "" := hids f (by simp)
    have hlkf : lookupA p.data.Files f.ID = none := hlk f (by simp)
    have hstep : p.AddFile f =
        .ok (.mk { p.data with Files := p.data.Files ++ [(f.ID, f)] }) := by
      unfold Package.AddFile
      rw [if_neg hid, insertA_append _ _ _ hlkf]
    have hnotmem : f.ID ∉ rest.map File.ID := (List.nodup_cons.mp hnd).1
    have hnd2 : (rest.map File.ID).Nodup := (List.nodup_cons.mp hnd).2
    have hlk2 : ∀ g ∈ rest,
        lookupA (p.data.Files ++ [(f.ID, f)]) g.ID = none := by
      intro g hg
      apply lookupA_append_none _ _ _ (hlk g (by simp [hg]))
      have hne : f.ID ≠ g.ID := by
        intro hcontra
        exact hnotmem (hcontra ▸ List.mem_map_of_mem File.ID hg)
      simp [lookupA, hne]
    have ih := addFiles_ok rest (.mk { p.data with Files := p.data.Files ++ [(f.ID, f)] })
      (fun g hg => hids g (by simp [hg])) hlk2 hnd2
    simp only [addFiles, hstep, ih, List.map_cons]
    simp [Package.data, List.append_assoc]

/-- C2: the verification code computed by `Render` is invariant under
permutation of the order in which the files were attached through
`AddFile` (stated for files with explicit, pairwise-distinct IDs attached
to a package with no previous files). -/
theorem C2_order_independence (fr : File → Except String String) (p0 : Package)
    (l1 l2 : List File) (pa pb : Package)
    (hperm : l1.Perm l2)
    (hids : ∀ f ∈ l1, f.ID ≠ "")
    (hnd : (l1.map File.ID).Nodup)
    (hsha : ∀ f ∈ l1, hasSha1 f = true)
    (hfa : p0.data.FilesAnalyzed = true)
    (hf0 : p0.data.Files = [])
    (hne : l1 ≠ [])
    (ha : addFiles p0 l1 = .ok pa) (hb : addFiles p0 l2 = .ok pb) :
    ((Package.Render fr pa).1).data.VerificationCode =
      ((Package.Render fr pb).1).data.VerificationCode := by
  have hids2 : ∀ f ∈ l2, f.ID ≠ "" := fun f hf => hids f (hperm.mem_iff.mpr hf)
  have hsha2 : ∀ f ∈ l2, hasSha1 f = true := fun f hf => hsha f (hperm.mem_iff.mpr hf)
  have hnd2 : (l2.map File.ID).Nodup := ((hperm.map File.ID).nodup_iff).mp hnd
  have hlk : ∀ (l : List File) (f : File), f ∈ l → lookupA p0.data.Files f.ID = none := by
    intro l f _
    rw [hf0]
    rfl
  have ha2 := addFiles_ok l1 p0 hids (hlk l1) hnd
  have hb2 := addFiles_ok l2 p0 hids2 (hlk l2) hnd2
  rw [ha2] at ha
  rw [hb2] at hb
  have hpa : pa = .mk { p0.data with Files := p0.data.Files ++ l1.map (fun f => (f.ID, f)) } :=
    (Except.ok.inj ha).symm
  have hpb : pb = .mk { p0.data with Files := p0.data.Files ++ l2.map (fun f => (f.ID, f)) } :=
    (Except.ok.inj hb).symm
  subst hpa hpb
  have hfa1 : ∀ (l : List File),
      (PackageData.Files { p0.data with Files := p0.data.Files ++ l.map (fun f => (f.ID, f)) }) =
        l.map (fun f => (f.ID, f)) := by
    intro l
    simp [hf0]
  have hshaA : ∀ (l : List File), (∀ f ∈ l, hasSha1 f = true) →
      ∀ kf ∈ l.map (fun f => (f.ID, f)), hasSha1 kf.2 = true := by
    intro l hall kf hkf
    obtain ⟨f, hf, rfl⟩ := List.mem_map.mp hkf
    exact hall f hf
  obtain ⟨lifa, hva⟩ := verifyStep_vc
    { p0.data with Files := p0.data.Files ++ l1.map (fun f => (f.ID, f)) }
    (by simpa using hfa) (by simp [hf0, hne]) (by rw [hfa1]; exact hshaA l1 hsha)
  obtain ⟨lifb, hvb⟩ := verifyStep_vc
    { p0.data with Files := p0.data.Files ++ l2.map (fun f => (f.ID, f)) }
    (by simpa using hfa)
    (by simp [hf0]; intro hcontra; exact hne (List.Perm.eq_nil (hcontra ▸ hperm)))
    (by rw [hfa1]; exact hshaA l2 hsha2)
  rw [(Render_fields fr _ _ _ hva).1, (Render_fields fr _ _ _ hvb).1]
  rw [hfa1, hfa1]
  unfold verificationCodeOf
  rw [List.map_map, List.map_map]
  have hmaps : (l1.map ((fun kf => fileSha kf.2) ∘ (fun f => (f.ID, f)))).Perm
      (l2.map ((fun kf => fileSha kf.2) ∘ (fun f => (f.ID, f)))) := hperm.map _
  rw [insertionSort_eq_of_perm hmaps]

/-- Witness for C2: the two example files attached in both orders. -/
theorem C2_order_independence_witness :
    ([fileA, fileB].Perm [fileB, fileA] ∧
     (∀ f ∈ [fileA, fileB], f.ID ≠ "") ∧
     ([fileA, fileB].map File.ID).Nodup ∧
     (∀ f ∈ [fileA, fileB], hasSha1 f = true) ∧
     pkgHello.data.FilesAnalyzed = true ∧ pkgHello.data.Files = [] ∧
     [fileA, fileB] ≠ [] ∧
     addFiles pkgHello [fileA, fileB] =
       .ok (.mk { pkgHello.data with
         Files := [(fileA.ID, fileA), (fileB.ID, fileB)] }) ∧
     addFiles pkgHello [fileB, fileA] =
       .ok (.mk { pkgHello.data with
         Files := [(fileB.ID, fileB), (fileA.ID, fileA)] })) ∧
    ((Package.Render frOk (.mk { pkgHello.data with
        Files := [(fileA.ID, fileA), (fileB.ID, fileB)] })).1).data.VerificationCode =
      ((Package.Render frOk (.mk { pkgHello.data with
        Files := [(fileB.ID, fileB), (fileA.ID, fileA)] })).1).data.VerificationCode := by
  have ha : addFiles pkgHello [fileA, fileB] =
      .ok (.mk { pkgHello.data with
        Files := [(fileA.ID, fileA), (fileB.ID, fileB)] }) :=
    addFiles_ok [fileA, fileB] pkgHello (by decide) (fun f _ => rfl) (by decide)
  have hb : addFiles pkgHello [fileB, fileA] =
      .ok (.mk { pkgHello.data with
        Files := [(fileB.ID, fileB), (fileA.ID, fileA)] }) :=
    addFiles_ok [fileB, fileA] pkgHello (by decide) (fun f _ => rfl) (by decide)
  refine ⟨⟨List.Perm.swap fileB fileA [], by decide, by decide, by decide, by decide,
    by decide, by decide, ha, hb⟩, ?_⟩
  exact C2_order_independence frOk pkgHello [fileA, fileB] [fileB, fileA] _ _
    (List.Perm.swap fileB fileA []) (by decide) (by decide) (by decide) (by decide)
    (by decide) (by decide) ha hb

/-! ## Claim C5 -/

theorem append_ne_empty_left (a b : String) (ha : a ≠ "") : a ++ b ≠ "" := by
  intro h
  apply ha
  have hd : a.data ++ b.data = [] := by
    have h2 := congrArg String.data h
    rwa [String.data_append] at h2
  exact String.ext (List.append_eq_nil.mp hd).1

/-- Characterization of the sub-package pre-check in terms of the
effective ID. -/
theorem preProcessSubPackage_eq (p pkg : Package) :
    p.preProcessSubPackage pkg =
      (if effectiveID pkg = "" then
        .error ("package name is needed to add a new package")
       else if (lookupA p.data.Packages (effectiveID pkg)).isSome then
        .error ("a package named " ++ effectiveID pkg ++ " already exists as a subpackage")
       else if (lookupA p.data.Dependencies (effectiveID pkg)).isSome then
        .error ("a package named " ++ effectiveID pkg ++ " already exists as a dependency")
       else .ok (.mk { pkg.data with ID := effectiveID pkg })) := by
  obtain ⟨dp⟩ := p
  obtain ⟨dk⟩ := pkg
  by_cases h0 : dk.ID = ""
  · by_cases hs : stripInvalidIDChars dk.Name = ""
    · simp [Package.preProcessSubPackage, effectiveID, Package.data, h0, hs]
    · have hne : "SPDXRef-Package-" ++ stripInvalidIDChars dk.Name ≠ "" :=
        append_ne_empty_left _ _ (by decide)
      simp [Package.preProcessSubPackage, effectiveID, Package.data, h0, hs, hne]
  · simp [Package.preProcessSubPackage, effectiveID, Package.data, h0]

/-- A conflicting non-empty effective ID makes the sub-package pre-check
fail with the conflict error naming that ID. -/
theorem preProcess_conflict (p pkg : Package)
    (hid : effectiveID pkg ≠ "")
    (hc : (lookupA p.data.Packages (effectiveID pkg)).isSome = true ∨
          (lookupA p.data.Dependencies (effectiveID pkg)).isSome = true) :
    ∃ e, p.preProcessSubPackage pkg = .error e ∧
      (e = "a package named " ++ effectiveID pkg ++ " already exists as a subpackage" ∨
       e = "a package named " ++ effectiveID pkg ++ " already exists as a dependency") := by
  rw [preProcessSubPackage_eq]
  rw [if_neg hid]
  by_cases hA : (lookupA p.data.Packages (effectiveID pkg)).isSome = true
  · rw [if_pos hA]
    exact ⟨_, rfl, Or.inl rfl⟩
  · rw [if_neg hA, if_pos (hc.resolve_left hA)]
    exact ⟨_, rfl, Or.inr rfl⟩

/-- C5: attaching a sub-package (or dependency) whose derived or explicit
ID already exists in either the sub-package map or the dependency map of
the parent fails with the wrapped conflict error naming that ID
(`a package named <id> already exists as a subpackage` or
`... as a dependency`), and on that failure neither the sub-package map
nor the dependency map gains or loses any entry. -/
theorem C5_conflict_leaves_tree_unchanged (p pkg : Package)
    (hid : effectiveID pkg ≠ "")
    (hc : (lookupA p.data.Packages (effectiveID pkg)).isSome = true ∨
          (lookupA p.data.Dependencies (effectiveID pkg)).isSome = true) :
    (∃ e, (p.AddPackage pkg).2 = some ("performing subpackage preprocessing: " ++ e) ∧
      (e = "a package named " ++ effectiveID pkg ++ " already exists as a subpackage" ∨
       e = "a package named " ++ effectiveID pkg ++ " already exists as a dependency") ∧
      (p.AddPackage pkg).1.data.Packages = p.data.Packages ∧
      (p.AddPackage pkg).1.data.Dependencies = p.data.Dependencies) ∧
    (∃ e, (p.AddDependency pkg).2 = some ("performing subpackage preprocessing: " ++ e) ∧
      (e = "a package named " ++ effectiveID pkg ++ " already exists as a subpackage" ∨
       e = "a package named " ++ effectiveID pkg ++ " already exists as a dependency") ∧
      (p.AddDependency pkg).1.data.Packages = p.data.Packages ∧
      (p.AddDependency pkg).1.data.Dependencies = p.data.Dependencies) := by
  obtain ⟨e, he, hor⟩ := preProcess_conflict p pkg hid hc
  constructor
  · unfold Package.AddPackage
    rw [he]
    exact ⟨e, rfl, hor, rfl, rfl⟩
  · unfold Package.AddDependency
    rw [he]
    exact ⟨e, rfl, hor, rfl, rfl⟩

/-- Witness for C5: a parent that already holds the ID derived from `dep`
as a dependency. -/
theorem C5_conflict_leaves_tree_unchanged_witness :
    (effectiveID pkgC5child ≠ "" ∧
     ((lookupA pkgC5parent.data.Packages (effectiveID pkgC5child)).isSome = true ∨
      (lookupA pkgC5parent.data.Dependencies (effectiveID pkgC5child)).isSome = true)) ∧
    ((∃ e, (pkgC5parent.AddPackage pkgC5child).2 =
        some ("performing subpackage preprocessing: " ++ e) ∧
      (e = "a package named " ++ effectiveID pkgC5child ++ " already exists as a subpackage" ∨
       e = "a package named " ++ effectiveID pkgC5child ++ " already exists as a dependency") ∧
      (pkgC5parent.AddPackage pkgC5child).1.data.Packages = pkgC5parent.data.Packages ∧
      (pkgC5parent.AddPackage pkgC5child).1.data.Dependencies =
        pkgC5parent.data.Dependencies) ∧
     (∃ e, (pkgC5parent.AddDependency pkgC5child).2 =
        some ("performing subpackage preprocessing: " ++ e) ∧
      (e = "a package named " ++ effectiveID pkgC5child ++ " already exists as a subpackage" ∨
       e = "a package named " ++ effectiveID pkgC5child ++ " already exists as a dependency") ∧
      (pkgC5parent.AddDependency pkgC5child).1.data.Packages =
        pkgC5parent.data.Packages ∧
      (pkgC5parent.AddDependency pkgC5child).1.data.Dependencies =
        pkgC5parent.data.Dependencies)) :=
  ⟨⟨by decide, by decide⟩,
   C5_conflict_leaves_tree_unchanged pkgC5parent pkgC5child (by decide) (by decide)⟩

/-! ## Claim C9 -/

/-- C9: reading the source file of a package stores the two content-hash
digests of the file content under the distinct keys `SHA256` and `SHA512`,
records the original path in `SourceFile`, and strips the working
directory from `FileName`, falling back silently to the unmodified path
when the prefix does not match; a missing path is an error that changes
nothing. The filesystem and the checksum providers are external
collaborators, passed as `fs`, `sha256F` and `sha512F`. -/
theorem C9_read_source_file (fs : String → Option String)
    (sha256F sha512F : String → String) (p : Package) (path content : String) :
    (fs path = none →
      Package.ReadSourceFile fs sha256F sha512F p path =
        (p, some ("unable to find package source file"))) ∧
    (fs path = some content →
      (Package.ReadSourceFile fs sha256F sha512F p path).2 = none ∧
      lookupA (Package.ReadSourceFile fs sha256F sha512F p path).1.data.Checksum
        ("SHA256") = some (sha256F content) ∧
      lookupA (Package.ReadSourceFile fs sha256F sha512F p path).1.data.Checksum
        ("SHA512") = some (sha512F content) ∧
      ("SHA256" : String) ≠ ("SHA512" : String) ∧
      (Package.ReadSourceFile fs sha256F sha512F p path).1.data.SourceFile = path ∧
      (Package.ReadSourceFile fs sha256F sha512F p path).1.data.FileName =
        goTrimPre path (p.data.options.WorkDir ++ "/") ∧
      (startsWithL path.data (p.data.options.WorkDir ++ "/").data = false →
        (Package.ReadSourceFile fs sha256F sha512F p path).1.data.FileName = path)) := by
  obtain ⟨dp⟩ := p
  constructor
  · intro h
    unfold Package.ReadSourceFile
    rw [h]
  · intro h
    unfold Package.ReadSourceFile
    rw [h]
    refine ⟨rfl, by simp [lookupA], by simp [lookupA], by decide, rfl, rfl, ?_⟩
    intro hp
    unfold goTrimPre
    rw [if_neg ?hne]
    · rfl
    case hne =>
      simp only [Package.data, String.data_append] at hp ⊢
      simp [hp]

/-- Witness for C9 at a concrete filesystem with one file below the
working directory and one outside it. -/
theorem C9_read_source_file_witness :
    (fsC9 ("/nope") = none →
      Package.ReadSourceFile fsC9 h256F h512F pkgC9 ("/nope") =
        (pkgC9, some ("unable to find package source file"))) ∧
    (fsC9 ("/nope") = none) ∧
    ((Package.ReadSourceFile fsC9 h256F h512F pkgC9 ("/w/src.tgz")).1.data.FileName =
      "src.tgz") ∧
    ((Package.ReadSourceFile fsC9 h256F h512F pkgC9 ("other.tgz")).1.data.FileName =
      "other.tgz") ∧
    (fsC9 ("/w/src.tgz") = some ("content one") →
      (Package.ReadSourceFile fsC9 h256F h512F pkgC9 ("/w/src.tgz")).2 = none ∧
      lookupA (Package.ReadSourceFile fsC9 h256F h512F pkgC9 ("/w/src.tgz")).1.data.Checksum
        ("SHA256") = some (h256F ("content one")) ∧
      lookupA (Package.ReadSourceFile fsC9 h256F h512F pkgC9 ("/w/src.tgz")).1.data.Checksum
        ("SHA512") = some (h512F ("content one")) ∧
      ("SHA256" : String) ≠ ("SHA512" : String) ∧
      (Package.ReadSourceFile fsC9 h256F h512F pkgC9 ("/w/src.tgz")).1.data.SourceFile =
        "/w/src.tgz" ∧
      (Package.ReadSourceFile fsC9 h256F h512F pkgC9 ("/w/src.tgz")).1.data.FileName =
        goTrimPre ("/w/src.tgz") (pkgC9.data.options.WorkDir ++ "/") ∧
      (startsWithL ("/w/src.tgz").data (pkgC9.data.options.WorkDir ++ "/").data = false →
        (Package.ReadSourceFile fsC9 h256F h512F pkgC9 ("/w/src.tgz")).1.data.FileName =
          "/w/src.tgz")) :=
  ⟨(C9_read_source_file fsC9 h256F h512F pkgC9 ("/nope") ("")).1,
   by decide, by decide, by decide,
   (C9_read_source_file fsC9 h256F h512F pkgC9 ("/w/src.tgz") ("content one")).2⟩

/-! ## Claim C3 -/

theorem hexPairs_length : ∀ bs : List Nat,
    ((bs.map (fun b => [hexDigit (b / 16), hexDigit (b % 16)])).flatten).length =
      2 * bs.length
  | [] => rfl
  | b :: rest => by
    simp only [List.map_cons, List.flatten_cons, List.length_append,
      hexPairs_length rest, List.length_cons, List.length_nil, List.length_singleton]
    omega

theorem bytesToHex_length (bs : List Nat) : (bytesToHex bs).length = 2 * bs.length := by
  unfold bytesToHex
  rw [String.length_mk]
  exact hexPairs_length bs

theorem sha1Bytes_length (msg : List Nat) : (sha1Bytes msg).length = 20 := by
  unfold sha1Bytes
  rcases (toChunks (sha1Pad msg)).foldl sha1Chunk
    (1732584193, 4023233417, 2562383102, 271733878, 3285377520) with ⟨h0, h1, h2, h3, h4⟩
  simp [wordBytes]

/-- The synthesized hex digest always has 40 characters. -/
theorem sha1HexOfString_length (s : String) : (sha1HexOfString s).length = 40 := by
  unfold sha1HexOfString
  rw [bytesToHex_length, sha1Bytes_length]

/-- C3 amended: a file attached without an ID gets
`SPDXRef-File-<40-hex-char SHA-1 of "<package name>:<file name>">` (the
claim said `File-<digest>`), and a sub-package or dependency attached
without an ID but with a name whose stripped form is non-empty gets
`SPDXRef-Package-<stripped name>` (the claim said `Package-<token>`). -/
theorem C3_id_synthesis (p : Package) (f : File) (pkg : Package)
    (hfid : f.ID = "") (hfn : f.Name ≠ "") (hpn : p.data.Name ≠ "")
    (hpid : pkg.data.ID = "") (hstrip : stripInvalidIDChars pkg.data.Name ≠ "")
    (hc1 : lookupA p.data.Packages
      ("SPDXRef-Package-" ++ stripInvalidIDChars pkg.data.Name) = none)
    (hc2 : lookupA p.data.Dependencies
      ("SPDXRef-Package-" ++ stripInvalidIDChars pkg.data.Name) = none) :
    (p.AddFile f = .ok (.mk { p.data with
        Files := insertA p.data.Files
          ("SPDXRef-File-" ++ sha1HexOfString (p.data.Name ++ ":" ++ f.Name))
          { f with ID := "SPDXRef-File-" ++ sha1HexOfString (p.data.Name ++ ":" ++ f.Name) } }) ∧
     (sha1HexOfString (p.data.Name ++ ":" ++ f.Name)).length = 40) ∧
    (effectiveID pkg = "SPDXRef-Package-" ++ stripInvalidIDChars pkg.data.Name ∧
     p.AddPackage pkg = (.mk { p.data with
        Packages := insertA p.data.Packages
          ("SPDXRef-Package-" ++ stripInvalidIDChars pkg.data.Name)
          (.mk { pkg.data with
            ID := "SPDXRef-Package-" ++ stripInvalidIDChars pkg.data.Name }) }, none) ∧
     p.AddDependency pkg = (.mk { p.data with
        Dependencies := insertA p.data.Dependencies
          ("SPDXRef-Package-" ++ stripInvalidIDChars pkg.data.Name)
          (.mk { pkg.data with
            ID := "SPDXRef-Package-" ++ stripInvalidIDChars pkg.data.Name }) }, none)) := by
  have heff : effectiveID pkg = "SPDXRef-Package-" ++ stripInvalidIDChars pkg.data.Name := by
    unfold effectiveID
    rw [if_pos hpid, if_pos hstrip]
  have hne : effectiveID pkg ≠ "" := by
    rw [heff]
    exact append_ne_empty_left _ _ (by decide)
  have hpre : p.preProcessSubPackage pkg =
      .ok (.mk { pkg.data with
        ID := "SPDXRef-Package-" ++ stripInvalidIDChars pkg.data.Name }) := by
    rw [preProcessSubPackage_eq, if_neg hne, heff]
    rw [if_neg (by simp [hc1]), if_neg (by simp [hc2])]
  refine ⟨⟨?_, sha1HexOfString_length _⟩, heff, ?_, ?_⟩
  · unfold Package.AddFile
    rw [if_pos hfid, if_neg hfn, if_neg hpn]
  · unfold Package.AddPackage
    rw [hpre]
    rfl
  · unfold Package.AddDependency
    rw [hpre]
    rfl

/-- Witness for C3 at package `hello`, file `main.c` and sub-package
candidate `dep`. -/
theorem C3_id_synthesis_witness :
    (fileMainCPlain.ID = "" ∧ fileMainCPlain.Name ≠ "" ∧ pkgHello.data.Name ≠ "" ∧
     pkgC5child.data.ID = "" ∧ stripInvalidIDChars pkgC5child.data.Name ≠ "" ∧
     lookupA pkgHello.data.Packages
       ("SPDXRef-Package-" ++ stripInvalidIDChars pkgC5child.data.Name) = none ∧
     lookupA pkgHello.data.Dependencies
       ("SPDXRef-Package-" ++ stripInvalidIDChars pkgC5child.data.Name) = none) ∧
    ((pkgHello.AddFile fileMainCPlain = .ok (.mk { pkgHello.data with
        Files := insertA pkgHello.data.Files
          ("SPDXRef-File-" ++ sha1HexOfString (pkgHello.data.Name ++ ":" ++ fileMainCPlain.Name))
          { fileMainCPlain with
            ID := "SPDXRef-File-" ++
              sha1HexOfString (pkgHello.data.Name ++ ":" ++ fileMainCPlain.Name) } }) ∧
      (sha1HexOfString (pkgHello.data.Name ++ ":" ++ fileMainCPlain.Name)).length = 40) ∧
     (effectiveID pkgC5child =
        "SPDXRef-Package-" ++ stripInvalidIDChars pkgC5child.data.Name ∧
      pkgHello.AddPackage pkgC5child = (.mk { pkgHello.data with
        Packages := insertA pkgHello.data.Packages
          ("SPDXRef-Package-" ++ stripInvalidIDChars pkgC5child.data.Name)
          (.mk { pkgC5child.data with
            ID := "SPDXRef-Package-" ++ stripInvalidIDChars pkgC5child.data.Name }) }, none) ∧
      pkgHello.AddDependency pkgC5child = (.mk { pkgHello.data with
        Dependencies := insertA pkgHello.data.Dependencies
          ("SPDXRef-Package-" ++ stripInvalidIDChars pkgC5child.data.Name)
          (.mk { pkgC5child.data with
            ID := "SPDXRef-Package-" ++ stripInvalidIDChars pkgC5child.data.Name }) }, none))) :=
  ⟨⟨by decide, by decide, by decide, by decide, by decide, rfl, rfl⟩,
   C3_id_synthesis pkgHello fileMainCPlain pkgC5child (by decide) (by decide) (by decide)
     (by decide) (by decide) rfl rfl⟩

/-- C3 counterexample: at package name `hello` and file name `main.c` the
synthesized file ID starts with `SPDXRef-File-`, so it differs from the
`File-<digest>` format the claim states. -/
theorem C3_counterexample :
    (pkgHello.AddFile fileMainCPlain).toOption.map (fun p2 => p2.data.Files) =
      some [(fidMainC, { fileMainCPlain with ID := fidMainC })] ∧
    fidMainC ≠ "File-" ++ sha1HexOfString ("hello:main.c") := by
  constructor
  · decide
  · decide

/-! ## Claim C6 -/

/-- A file without a SHA-1 entry somewhere in the list makes the
verification loop fail with one of its two fixed error messages. -/
theorem collectFilesLoop_error :
    ∀ (files : List (String × File)) (shas tags : List String),
    (∃ kf ∈ files, hasSha1 kf.2 = false) →
    ∃ e, collectFilesLoop files shas tags = .error e ∧
      (e = "unable to render package, file has no checksums" ∨
       e = "unable to render package, files were analyzed but some do not have sha1 checksum")
  | [], _, _, h => by simp at h
  | (k, f) :: rest, shas, tags, h => by
    by_cases hf : hasSha1 f = true
    · obtain ⟨cks, sha, hcks, hsha, _⟩ := hasSha1_elim hf
      have hrest : ∃ kf ∈ rest, hasSha1 kf.2 = false := by
        obtain ⟨kf, hmem, hbad⟩ := h
        rcases List.mem_cons.mp hmem with heq | hmem2
        · subst heq
          exact absurd hf (by simp [hbad])
        · exact ⟨kf, hmem2, hbad⟩
      simp only [collectFilesLoop, hcks, hsha]
      split
      · exact collectFilesLoop_error rest (shas ++ [sha]) _ hrest
      · exact collectFilesLoop_error rest (shas ++ [sha]) _ hrest
    · cases hcks : f.Checksum with
      | none =>
        exact ⟨_, by simp [collectFilesLoop, hcks], Or.inl rfl⟩
      | some cks =>
        cases hsha : lookupCk cks ("SHA1") with
        | some sha => exact absurd (by simp [hasSha1, hcks, hsha]) hf
        | none =>
          exact ⟨_, by simp [collectFilesLoop, hcks, hsha], Or.inr rfl⟩

/-- C6 amended: with `FilesAnalyzed` true, `Render` fails on zero files
and on a file without checksums or without a SHA-1 entry, with a fixed
error message (the message does not name the offending file, contrary to
the original claim), and the returned fragment is empty. -/
theorem C6_failure_modes (fr : File → Except String String) (p : Package)
    (hfa : p.data.FilesAnalyzed = true) :
    (p.data.Files = [] →
      Package.Render fr p =
        (p, "", some ("unable to get package verification code, package has no files"))) ∧
    ((∃ kf ∈ p.data.Files, hasSha1 kf.2 = false) →
      ∃ e, Package.Render fr p = (p, "", some e) ∧
        (e = "unable to render package, file has no checksums" ∨
         e = "unable to render package, files were analyzed but some do not have sha1 checksum")) := by
  obtain ⟨d⟩ := p
  simp only [Package.data] at hfa
  constructor
  · intro h0
    simp only [Package.data] at h0
    have hv : verifyStep d =
        .error ("unable to get package verification code, package has no files") := by
      unfold verifyStep
      rw [hfa, if_pos rfl, if_pos (by simp [h0])]
    exact Render_error fr d _ hv
  · intro hbad
    simp only [Package.data] at hbad
    obtain ⟨e, he, hor⟩ := collectFilesLoop_error d.Files [] [] hbad
    have hlen : ¬ d.Files.length = 0 := by
      obtain ⟨kf, hmem, _⟩ := hbad
      intro hcontra
      rw [List.length_eq_zero] at hcontra
      simp [hcontra] at hmem
    have hv : verifyStep d = .error e := by
      unfold verifyStep
      rw [hfa, if_pos rfl, if_neg hlen, he]
    exact ⟨e, Render_error fr d e hv, hor⟩

/-- Witness for C6: the two failure modes at concrete packages. -/
theorem C6_failure_modes_witness :
    pkgHello.data.FilesAnalyzed = true ∧ pkgC6.data.FilesAnalyzed = true ∧
    pkgHello.data.Files = [] ∧ (∃ kf ∈ pkgC6.data.Files, hasSha1 kf.2 = false) ∧
    Package.Render frOk pkgHello =
      (pkgHello, "", some ("unable to get package verification code, package has no files")) ∧
    (∃ e, Package.Render frOk pkgC6 = (pkgC6, "", some e) ∧
      (e = "unable to render package, file has no checksums" ∨
       e = "unable to render package, files were analyzed but some do not have sha1 checksum")) :=
  ⟨by decide, by decide, by decide, by decide,
   (C6_failure_modes frOk pkgHello (by decide)).1 (by decide),
   (C6_failure_modes frOk pkgC6 (by decide)).2 (by decide)⟩

/-- C6 counterexample: the missing-checksums error does not name the
offending file `main.c`. -/
theorem C6_counterexample :
    (Package.Render frOk pkgC6).2.1 = "" ∧
    (Package.Render frOk pkgC6).2.2 =
      some ("unable to render package, file has no checksums") ∧
    ¬ containsStr ("unable to render package, file has no checksums") ("main.c") ∧
    pkgC6.data.Files.map (fun kf => kf.2.Name) = ["main.c"] := by
  have hv : verifyStep pkgC6.data =
      .error ("unable to render package, file has no checksums") := by rfl
  have hr := Render_error frOk pkgC6.data _ hv
  rw [Package.mk_data] at hr
  rw [hr]
  exact ⟨rfl, rfl, by decide, by decide⟩

/-! ## Claim C4 -/

/-- C4 counterexample: for the end-to-end example built exactly as the
claim states it (package `hello` with no explicit ID), the rendered
fragment does not contain the claimed
`Relationship: Package-hello CONTAINS File-<digest>` line — the rendered
IDs carry the `SPDXRef-` prefix and the package ID is empty. -/
theorem C4_counterexample :
    (Package.Render frOk pkgC4).2.2 = none ∧
    ¬ containsStr (Package.Render frOk pkgC4).2.1
        ("Relationship: Package-hello CONTAINS File-" ++ sha1HexOfString ("hello:main.c")) ∧
    ¬ containsStr (Package.Render frOk pkgC4).2.1 ("Package-hello") := by
  have hL := Render_leaf frOk pkgC4.data rfl rfl
  rw [Package.mk_data] at hL
  rw [hL]
  exact ⟨by decide, by decide, by decide⟩

/-- C4 amended: with the package ID set to the value the engine derives
for the name `hello` (`SPDXRef-Package-hello`), the fragment contains the
verification code derived from the single hash, the
`PackageLicenseInfoFromFiles: NONE` line, and ends with the relationship
line naming the `SPDXRef-`-prefixed package and file IDs. -/
theorem C4_end_to_end :
    effectiveID (.mk { Name := "hello" }) = "SPDXRef-Package-hello" ∧
    (Package.Render frOk pkgC4WithID).2.2 = none ∧
    containsStr (Package.Render frOk pkgC4WithID).2.1
      ("PackageVerificationCode: " ++ sha1HexOfString hash40a) ∧
    containsStr (Package.Render frOk pkgC4WithID).2.1
      ("PackageLicenseInfoFromFiles: NONE\n") ∧
    endsWithStr (Package.Render frOk pkgC4WithID).2.1
      ("Relationship: SPDXRef-Package-hello CONTAINS " ++ fidMainC ++ "\n\n") := by
  have hL := Render_leaf frOk pkgC4WithID.data rfl rfl
  rw [Package.mk_data] at hL
  rw [hL]
  exact ⟨by decide, by decide, by decide, by decide, by decide⟩

/-! ## Claim C7 -/

theorem hasSubL_cons {pat rest : List Char} (c : Char) (h : hasSubL pat rest = true) :
    hasSubL pat (c :: rest) = true := by
  simp [hasSubL, h]

/-- C7 counterexample: a package with `FilesAnalyzed` false renders no
`PackageLicenseInfoFromFiles` line at all (the claim says it renders the
sentinel `NONE` line). -/
theorem C7_counterexample :
    NewPackage.data.FilesAnalyzed = false ∧
    (Package.Render frOk NewPackage).2.2 = none ∧
    ¬ containsStr (Package.Render frOk NewPackage).2.1 ("PackageLicenseInfoFromFiles") := by
  have hL := Render_leaf frOk NewPackage.data rfl rfl
  rw [Package.mk_data] at hL
  rw [hL]
  exact ⟨rfl, by decide, by decide⟩

/-- C7 amended: a package with `FilesAnalyzed` true whose files all carry
an empty license tag (and no previously accumulated tags) renders the
`PackageLicenseInfoFromFiles: NONE` line; empty concluded and declared
licenses render `NOASSERTION` (with `FilesAnalyzed` false no
`PackageLicenseInfoFromFiles` line is derived at all, see the
counterexample). -/
theorem C7_sentinel_fallbacks (fr : File → Except String String) (p : Package)
    (hfa : p.data.FilesAnalyzed = true) (hne : p.data.Files ≠ [])
    (hsha : ∀ kf ∈ p.data.Files, hasSha1 kf.2 = true)
    (hl : ∀ kf ∈ p.data.Files, kf.2.LicenseInfoInFile = "")
    (hlif : p.data.LicenseInfoFromFiles = [])
    (hlc : p.data.LicenseConcluded = "") (hld : p.data.LicenseDeclared = "")
    (hsucc : (Package.Render fr p).2.2 = none) :
    containsStr (Package.Render fr p).2.1 ("PackageLicenseInfoFromFiles: NONE\n") ∧
    containsStr (Package.Render fr p).2.1 ("PackageLicenseConcluded: NOASSERTION\n") ∧
    containsStr (Package.Render fr p).2.1 ("PackageLicenseDeclared: NOASSERTION\n") := by
  obtain ⟨d⟩ := p
  have hv := verifyStep_no_tags d hfa hne hsha hl hlif
  obtain ⟨rest, hfrag⟩ := Render_frag fr d _ _ hv hsucc
  rw [hfrag]
  simp only [Package.data] at hlc hld
  refine ⟨?_, ?_, ?_⟩
  · unfold containsStr executeTemplate
    simp only [Package.data, hlc, hld, ne_eq, eq_self_iff_true, not_true, if_false,
      String.data_append, List.append_assoc]
    repeat
      first
        | exact hasSubL_of_startsWith (by exact rfl)
        | apply hasSubL_append_r
        | apply hasSubL_cons
  · unfold containsStr executeTemplate
    simp only [Package.data, hlc, hld, ne_eq, eq_self_iff_true, not_true, if_false,
      String.data_append, List.append_assoc]
    repeat
      first
        | exact hasSubL_of_startsWith (by exact rfl)
        | apply hasSubL_append_r
        | apply hasSubL_cons
  · unfold containsStr executeTemplate
    simp only [Package.data, hlc, hld, ne_eq, eq_self_iff_true, not_true, if_false,
      String.data_append, List.append_assoc]
    repeat
      first
        | exact hasSubL_of_startsWith (by exact rfl)
        | apply hasSubL_append_r
        | apply hasSubL_cons

/-- Witness for C7 at the end-to-end example package. -/
theorem C7_sentinel_fallbacks_witness :
    (pkgC4.data.FilesAnalyzed = true ∧ pkgC4.data.Files ≠ [] ∧
     (∀ kf ∈ pkgC4.data.Files, hasSha1 kf.2 = true) ∧
     (∀ kf ∈ pkgC4.data.Files, kf.2.LicenseInfoInFile = "") ∧
     pkgC4.data.LicenseInfoFromFiles = [] ∧
     pkgC4.data.LicenseConcluded = "" ∧ pkgC4.data.LicenseDeclared = "" ∧
     (Package.Render frOk pkgC4).2.2 = none) ∧
    (containsStr (Package.Render frOk pkgC4).2.1 ("PackageLicenseInfoFromFiles: NONE\n") ∧
     containsStr (Package.Render frOk pkgC4).2.1 ("PackageLicenseConcluded: NOASSERTION\n") ∧
     containsStr (Package.Render frOk pkgC4).2.1 ("PackageLicenseDeclared: NOASSERTION\n")) := by
  have hsucc : (Package.Render frOk pkgC4).2.2 = none := by
    have hL := Render_leaf frOk pkgC4.data rfl rfl
    rw [Package.mk_data] at hL
    rw [hL]
    decide
  exact ⟨⟨by decide, by decide, by decide, by decide, by decide, by decide, by decide, hsucc⟩,
    C7_sentinel_fallbacks frOk pkgC4 (by decide) (by decide) (by decide) (by decide)
      (by decide) (by decide) (by decide) hsucc⟩

/-! ## Claim C10 -/

/-- C10: `Render` pipes the package through the `html/template` engine,
so a name containing HTML-special characters appears HTML-escaped in the
fragment, and its literal value appears nowhere. -/
theorem C10_html_escaping :
    (Package.Render frOk pkgC10).2.2 = none ∧
    htmlEscape pkgC10.data.Name = "a&lt;b&gt;&amp;&#34;q&#34;" ∧
    containsStr (Package.Render frOk pkgC10).2.1 ("a&lt;b&gt;&amp;&#34;q&#34;") ∧
    ¬ containsStr (Package.Render frOk pkgC10).2.1 pkgC10.data.Name := by
  have hL := Render_leaf frOk pkgC10.data rfl rfl
  rw [Package.mk_data] at hL
  rw [hL]
  exact ⟨by decide, by decide, by decide, by decide⟩

/-! ## Claim C8 -/

theorem renderChildren_cons (fr : File → Except String String) (pid rel k : String)
    (sp : Package) (rest : List (String × Package)) :
    renderChildren fr pid rel ((k, sp) :: rest) =
      match Package.Render fr sp with
      | (sp2, _, some e) =>
          ((k, sp2) :: rest, "", some ("rendering pkg " ++ sp2.data.Name ++ ": " ++ e))
      | (sp2, frag, none) =>
        match renderChildren fr pid rel rest with
        | (rest2, _, some e) => ((k, sp2) :: rest2, "", some e)
        | (rest2, rfrag, none) =>
            ((k, sp2) :: rest2,
             frag ++ "Relationship: " ++ pid ++ " " ++ rel ++ " " ++ sp2.data.ID ++ "\n\n" ++
               rfrag,
             none) := by
  rw [renderChildren]

theorem idsOf_mk (d : PackageData Package) :
    (Package.mk d).idsOf =
      d.ID :: (d.Files.map (fun kf => kf.2.ID) ++
        (idsOfChildren d.Packages ++ idsOfChildren d.Dependencies)) := by
  rw [Package.idsOf]

theorem idsOfChildren_nil : idsOfChildren [] = [] := by
  rw [idsOfChildren]

theorem idsOfChildren_cons (k : String) (sp : Package) (rest : List (String × Package)) :
    idsOfChildren ((k, sp) :: rest) = sp.idsOf ++ idsOfChildren rest := by
  rw [idsOfChildren]

theorem sizeOf_packages_lt (d : PackageData Package) :
    sizeOf d.Packages < sizeOf (Package.mk d) := by
  cases d
  simp
  omega

theorem sizeOf_dependencies_lt (d : PackageData Package) :
    sizeOf d.Dependencies < sizeOf (Package.mk d) := by
  cases d
  simp
  omega

theorem sizeOf_child_lt (k : String) (sp : Package) (rest : List (String × Package)) :
    sizeOf sp < sizeOf ((k, sp) :: rest) := by
  simp
  omega

theorem sizeOf_rest_lt (k : String) (sp : Package) (rest : List (String × Package)) :
    sizeOf rest < sizeOf ((k, sp) :: rest) := by
  simp

/-- The renderer never assigns or reassigns an ID anywhere in the tree:
the multiset of IDs of the package, its files, sub-packages and
dependencies is exactly preserved by `Render` (joint statement with the
children loop, proved by strong induction on the tree size). -/
theorem render_preserves_ids (fr : File → Except String String) : ∀ n : Nat,
    (∀ p : Package, sizeOf p ≤ n → ((Package.Render fr p).1).idsOf = p.idsOf) ∧
    (∀ (pid rel : String) (l : List (String × Package)), sizeOf l ≤ n →
      idsOfChildren (renderChildren fr pid rel l).1 = idsOfChildren l) := by
  intro n
  induction n using Nat.strong_induction_on with
  | _ n ih =>
    constructor
    · intro p hle
      obtain ⟨d⟩ := p
      have hP : sizeOf d.Packages < n :=
        Nat.lt_of_lt_of_le (sizeOf_packages_lt d) hle
      have hD : sizeOf d.Dependencies < n :=
        Nat.lt_of_lt_of_le (sizeOf_dependencies_lt d) hle
      rw [Render_mk]
      cases hv : verifyStep d with
      | error e => rfl
      | ok pr =>
        obtain ⟨vc, lif⟩ := pr
        cases hf : renderFiles fr d.ID d.Files with
        | mk ffrag oe =>
          cases oe with
          | some e => simp [idsOf_mk]
          | none =>
            cases hp : renderChildren fr d.ID ("CONTAINS") d.Packages with
            | mk pkgs2 pr2 =>
              obtain ⟨pfrag, ope⟩ := pr2
              have ihP : idsOfChildren pkgs2 = idsOfChildren d.Packages := by
                have h0 := (ih _ hP).2 d.ID ("CONTAINS") d.Packages (Nat.le_refl _)
                rw [hp] at h0
                exact h0
              cases ope with
              | some e => simp [idsOf_mk, ihP]
              | none =>
                cases hq : renderChildren fr d.ID ("DEPENDS_ON") d.Dependencies with
                | mk deps2 qr =>
                  obtain ⟨dfrag, oqe⟩ := qr
                  have ihD : idsOfChildren deps2 = idsOfChildren d.Dependencies := by
                    have h0 := (ih _ hD).2 d.ID ("DEPENDS_ON") d.Dependencies (Nat.le_refl _)
                    rw [hq] at h0
                    exact h0
                  cases oqe with
                  | some e => simp [idsOf_mk, ihP, ihD]
                  | none => simp [idsOf_mk, ihP, ihD]
    · intro pid rel l hle
      match l with
      | [] => rw [renderChildren_nil]
      | (k, sp) :: rest =>
        have hsp : sizeOf sp < n :=
          Nat.lt_of_lt_of_le (sizeOf_child_lt k sp rest) hle
        have hrest : sizeOf rest < n :=
          Nat.lt_of_lt_of_le (sizeOf_rest_lt k sp rest) hle
        rw [renderChildren_cons]
        cases hr : Package.Render fr sp with
        | mk sp2 rr =>
          obtain ⟨frag, ore⟩ := rr
          have ihsp : sp2.idsOf = sp.idsOf := by
            have h0 := (ih _ hsp).1 sp (Nat.le_refl _)
            rw [hr] at h0
            exact h0
          cases ore with
          | some e => simp [idsOfChildren_cons, ihsp]
          | none =>
            cases hrc : renderChildren fr pid rel rest with
            | mk rest2 rcr =>
              obtain ⟨rfrag, orce⟩ := rcr
              have ihrest : idsOfChildren rest2 = idsOfChildren rest := by
                have h0 := (ih _ hrest).2 pid rel rest (Nat.le_refl _)
                rw [hrc] at h0
                exact h0
              cases orce with
              | some e => simp [idsOfChildren_cons, ihsp, ihrest]
              | none => simp [idsOfChildren_cons, ihsp, ihrest]

/-- A successful verification step only ever appends to the license list
carried by the package: the new `LicenseInfoFromFiles` value extends the
old one. -/
theorem verifyStep_lif_extends (d : PackageData Package) (vc : String) (lif : List String)
    (hv : verifyStep d = .ok (vc, lif)) :
    ∃ ext, lif = d.LicenseInfoFromFiles ++ ext := by
  unfold verifyStep at hv
  split at hv
  · split at hv
    · simp at hv
    · split at hv
      · simp at hv
      · rename_i x shaList tags heq
        simp only [Except.ok.injEq, Prod.mk.injEq] at hv
        refine ⟨List.filter (fun t => !(t == NONE) && !(t == NOASSERTION)) tags ++
          (if tags.length = 0 then [NONE] else []), ?_⟩
        rw [← hv.2, List.append_assoc]
  · simp only [Except.ok.injEq, Prod.mk.injEq] at hv
    exact ⟨[], by rw [← hv.2, List.append_nil]⟩

/-- C8 amended: `Render` never reassigns any ID in the tree (IDs are
stable across repeated renders), and it overwrites `VerificationCode`
but only ever appends to `LicenseInfoFromFiles` — so a second render is
not the identity on that field (see the counterexample for the failure
of idempotence claimed by the spec). -/
theorem C8_render_ids_and_appended_lif (fr : File → Except String String) (p : Package) :
    ((Package.Render fr p).1).idsOf = p.idsOf ∧
    (∀ vc lif, verifyStep p.data = .ok (vc, lif) →
      ∃ ext, lif = p.data.LicenseInfoFromFiles ++ ext) :=
  ⟨(render_preserves_ids fr (sizeOf p)).1 p (Nat.le_refl _),
   fun vc lif hv => verifyStep_lif_extends p.data vc lif hv⟩

/-- Witness for C8 at the end-to-end example package. -/
theorem C8_render_ids_and_appended_lif_witness :
    ((Package.Render frOk pkgC4).1).idsOf = pkgC4.idsOf ∧
    (verifyStep pkgC4.data = .ok (sha1HexOfString hash40a, [NONE]) ∧
     ∃ ext, [NONE] = pkgC4.data.LicenseInfoFromFiles ++ ext) := by
  have h := C8_render_ids_and_appended_lif frOk pkgC4
  exact ⟨h.1, by rfl, h.2 (sha1HexOfString hash40a) [NONE] (by rfl)⟩

/-- C8 counterexample: rendering the end-to-end example package twice is
not idempotent — the second call succeeds but returns a different
fragment, and `LicenseInfoFromFiles` holds the `NONE` sentinel twice,
not only the value derived by the last render. -/
theorem C8_counterexample :
    (Package.Render frOk pkgC4).1 = pkgC4R ∧
    (Package.Render frOk pkgC4).2.2 = none ∧
    (Package.Render frOk pkgC4R).2.2 = none ∧
    (Package.Render frOk pkgC4R).2.1 ≠ (Package.Render frOk pkgC4).2.1 ∧
    ((Package.Render frOk pkgC4R).1).data.LicenseInfoFromFiles = [NONE, NONE] := by
  have hL1 := Render_leaf frOk pkgC4.data rfl rfl
  rw [Package.mk_data] at hL1
  have hL2 := Render_leaf frOk pkgC4R.data rfl rfl
  rw [Package.mk_data] at hL2
  rw [hL1, hL2]
  exact ⟨rfl, by decide, by decide, by decide, by decide⟩

end Spdx
